import Mathlib

set_option autoImplicit false

/-!
Verification of the django-modeltrans core against its specification.

The development shallowly embeds the three source modules:
  * `modeltrans/utils.py`    — the field-name codec and language clamping,
  * `modeltrans/fields.py`   — the virtual-field read/write resolver and the
                               query-expression compiler,
  * `modeltrans/translator.py` — schema-time validation and accessor creation.

Machine strings are modelled as Lean `String`s (lists of characters); the
translation bag (a JSON object of string keys to string values) is modelled as
an association list; the Django ORM expression vocabulary used by
`as_expression` is modelled as an inductive syntax tree.  Configuration values
supplied by the `conf` module (available languages, default language, fallback
chains) are fields of an explicit `Config` record.
-/

namespace Modeltrans

/-! ### Field-name codec (`modeltrans/utils.py`) -/

/-- Index of the last occurrence of `c`, as Python `str.rfind` computes it
(`none` standing for Python's `-1`). -/
def rfind_char (c : Char) : List Char → Option Nat
  | [] => none
  | x :: xs =>
    match rfind_char c xs with
    | some i => some (i + 1)
    | none => if x = c then some 0 else none

/-- Character-level body of `split_translated_fieldname`: Python
`(s[0:pos], s[pos+1:])` after `pos = s.rfind("_")`; with no underscore the
slices are `(s[0:-1], s[0:])`. -/
def split_chars (s : List Char) : List Char × List Char :=
  match rfind_char '_' s with
  | some p => (s.take p, s.drop (p + 1))
  | none => (s.dropLast, s)

/-- The `split_translated_fieldname` from `modeltrans/utils.py`: split a storage
key on the last underscore into (base field, language). -/
def split_translated_fieldname (s : String) : String × String :=
  (String.mk (split_chars s.toList).1, String.mk (split_chars s.toList).2)

/-- The language normalisation inside `build_localized_fieldname`: remap the
Indonesian code `id` to `ind`, then replace `-` by `_`. -/
def normalize_chars (l : List Char) : List Char :=
  (if l = ['i', 'd'] then ['i', 'n', 'd'] else l).map
    (fun c => if c = '-' then '_' else c)

/-- The `build_localized_fieldname` from `modeltrans/utils.py`: the storage key
for (base field, language) is the base field name, an underscore, and the
normalised language code. -/
def build_localized_fieldname (field_name lang : String) : String :=
  String.mk (field_name.toList ++ '_' :: normalize_chars lang.toList)

/-- The codec as §4.1 of the spec words the normalisation: replace `-` with
`_` and remap `id` to `ind`.  Refinement comparator for the source's
`build_localized_fieldname`. -/
def spec_normalize (lang : String) : String :=
  String.mk ((if lang = "id" then "ind" else lang).toList.map
    (fun c => if c = '-' then '_' else c))

/-- The `encode` as §4.1 of the spec words it:
`base_field + "_" + normalize(language)`. -/
def spec_encode (field_name lang : String) : String :=
  field_name ++ "_" ++ spec_normalize lang

theorem string_mk_toList (s : String) : String.mk s.toList = s := by
  cases s; rfl

theorem toList_append (s t : String) :
    (s ++ t).toList = s.toList ++ t.toList :=
  String.data_append s t

theorem string_eq_iff_toList (s t : String) : s = t ↔ s.toList = t.toList := by
  constructor
  · intro h; rw [h]
  · intro h
    have := congrArg String.mk h
    simpa [string_mk_toList] using this

/-- The source codec agrees with the spec's wording of `encode`. -/
theorem build_localized_fieldname_eq_spec_encode (f l : String) :
    build_localized_fieldname f l = spec_encode f l := by
  rw [string_eq_iff_toList]
  rw [spec_encode, toList_append, toList_append]
  rw [build_localized_fieldname, spec_normalize]
  simp only [normalize_chars]
  have hid : (l = "id") = (l.toList = ['i', 'd']) := by
    apply propext
    rw [string_eq_iff_toList]
    constructor <;> intro h <;> simpa using h
  by_cases h : l = "id"
  · simp [h]
  · have h2 : ¬ l.toList = ['i', 'd'] := by rw [← hid]; exact h
    have h3 : ¬ l.data = ['i', 'd'] := h2
    simp [h, h3]

/-- If `c` does not occur in `l`, `rfind_char` reports no occurrence. -/
theorem rfind_char_eq_none {c : Char} {l : List Char} (h : c ∉ l) :
    rfind_char c l = none := by
  induction l with
  | nil => rfl
  | cons x xs ih =>
    have hx : x ≠ c := fun hxc => h (hxc ▸ List.mem_cons_self x xs)
    have hxs : c ∉ xs := fun hmem => h (List.mem_cons_of_mem x hmem)
    simp [rfind_char, ih hxs, hx]

/-- The last occurrence of `c` in `a ++ c :: b` with `c ∉ b` is the
separator position `a.length`. -/
theorem rfind_char_append {c : Char} (a : List Char) {b : List Char}
    (h : c ∉ b) : rfind_char c (a ++ c :: b) = some a.length := by
  induction a with
  | nil => simp [rfind_char, rfind_char_eq_none h]
  | cons x xs ih => simp [rfind_char, ih]

/-! ### Configuration and record model

The `conf` module (available languages, default language, fallback chains) is
not under `src/`; following the spec's §6 "configuration provider" interface
it is modelled as the fields of `Config`.  Likewise `get_instance_field_value`
and the Django record machinery are modelled as plain fields of `Instance`:
the per-record values the source reads through them. -/

/-- Modelled from the spec: the configuration provider of §6
(`available_languages`, `default_language`, `fallback_chain`), together with
the `TranslationField`'s `fallback_language_field` argument from
`modeltrans/fields.py`.  `default_language` also stands for the module-level
`GLOBAL_DEFAULT_LANGUAGE` cached in `modeltrans/fields.py`. -/
structure Config where
  available : List String
  default_language : String
  fallback : String → List String
  fallback_language_field : Option String

/-- A record instance, as the resolver sees it: the base field's physical
value, the translation bag (`none` when still uninitialised), whether the
bag attribute was deferred from loading, and the values of the per-record
fallback-language and default-language source fields (the source reads them
via `get_instance_field_value`, which is not under `src/` and is modelled
from the spec as direct field values). -/
structure Instance where
  original_value : Option String
  i18n : Option (List (String × String))
  deferred : Bool
  fallback_language_value : Option String
  default_language_value : String

/-- A `TranslatedVirtualField`: base field name, its own attribute name,
fixed language (`none` for the current-language `_i18n` accessor), the
`default_language_field` argument, and the original field's shape (used by
`output_field`). -/
structure VField where
  original_name : String
  name : String
  language : Option String
  default_language_field : Option String
  original_is_char : Bool
  original_max_length : Option Nat

/-- Python truthiness of an optional string value: `None` and `""` are
falsy. -/
def truthy (v : Option String) : Bool := v.getD "" != ""

/-- The `get_language` from `modeltrans/utils.py`: clamp the active language to
the configured available languages, falling back to the default language. -/
def get_language (cfg : Config) (active : String) : String :=
  if active ∈ cfg.available then active else cfg.default_language

/-- The `TranslatedVirtualField.get_language`: the fixed language of an explicit
accessor, or the (clamped) active language for the `_i18n` accessor. -/
def field_language (cfg : Config) (fld : VField) (active : String) : String :=
  match fld.language with
  | some l => l
  | none => get_language cfg active

/-- The `TranslatedVirtualField.get_default_language`: the global default unless
a `default_language_field` is configured, in which case the record's own
value of that field (`record_default`, read by the source through
`get_instance_field_value`). -/
def get_default_language (cfg : Config) (fld : VField)
    (record_default : String) : String :=
  match fld.default_language_field with
  | none => cfg.default_language
  | some _ => record_default

/-- The `dict.get` on the translation bag. -/
def bag_get : List (String × String) → String → Option String
  | [], _ => none
  | p :: ps, key => if p.1 = key then some p.2 else bag_get ps key

/-- The `dict` assignment `bag[key] = v`. -/
def bag_set (bag : List (String × String)) (key v : String) :
    List (String × String) :=
  (key, v) :: bag.filter (fun p => p.1 != key)

/-- The `dict.pop(key, None)`: drop the key, silently if absent. -/
def bag_pop (bag : List (String × String)) (key : String) :
    List (String × String) :=
  bag.filter (fun p => p.1 != key)

/-- The `TranslatedVirtualField.get_instance_fallback_chain`: the configured
chain for `language`, prepended with the record's own fallback language
(`record_fallback`, read by the source through `get_instance_field_value`)
when the per-record-fallback feature is used and that value is truthy. -/
def get_instance_fallback_chain (cfg : Config)
    (record_fallback : Option String) (language : String) : List String :=
  let dflt := cfg.fallback language
  match cfg.fallback_language_field with
  | some _ =>
    match record_fallback with
    | some v => if v != "" then v :: dflt else dflt
    | none => dflt
  | none => dflt

/-! ### Read path (`TranslatedVirtualField.__get__`) -/

/-- The message of the `ValueError` raised on deferred access (the spec's
`DeferredAccessError`). -/
def deferred_message : String :=
  "Getting translated values on a model fetched with defer(i18n) is not supported."

/-- The fallback loop at the end of `__get__`: walk the candidate languages;
a candidate equal to the default language short-circuits to the (truthy)
base value, any other candidate hits when its bag entry is present and
truthy; an exhausted walk returns the base field's value. -/
def fallback_walk (d : String) (orig : Option String)
    (bag : List (String × String)) (base : String) : List String → Option String
  | [] => orig
  | l :: ls =>
    if l = d then
      if truthy orig then orig else fallback_walk d orig bag base ls
    else
      if (bag_get bag (build_localized_fieldname base l)).isSome
          ∧ truthy (bag_get bag (build_localized_fieldname base l)) then
        bag_get bag (build_localized_fieldname base l)
      else fallback_walk d orig bag base ls

/-- The `TranslatedVirtualField.__get__` (with a bound instance): deferred check,
default-language fast path, explicit-accessor bag lookup, and the fallback
walk for the `_i18n` accessor. -/
def vfield_get (cfg : Config) (fld : VField) (inst : Instance)
    (active : String) : Except String (Option String) :=
  if inst.deferred then .error deferred_message
  else
    let language := field_language cfg fld active
    let original_value := inst.original_value
    let default_language := get_default_language cfg fld inst.default_language_value
    if language = default_language ∧ truthy original_value then
      .ok original_value
    else
      let bag := inst.i18n.getD []
      match fld.language with
      | some _ => .ok (bag_get bag (build_localized_fieldname fld.original_name language))
      | none => .ok (fallback_walk default_language original_value bag
          fld.original_name
          (language :: get_instance_fallback_chain cfg inst.fallback_language_value language))

/-! ### Write path (`TranslatedVirtualField.__set__`) -/

/-- The `TranslatedVirtualField.__set__`: lazily initialise the bag, write the
base field when the language is the default, otherwise update (or, for
`None`, pop) the bag entry. -/
def vfield_set (cfg : Config) (fld : VField) (inst : Instance)
    (active : String) (value : Option String) : Instance :=
  let inst1 := if inst.i18n = none then { inst with i18n := some [] } else inst
  let language := field_language cfg fld active
  let default_language := get_default_language cfg fld inst1.default_language_value
  if language = default_language then { inst1 with original_value := value }
  else
    let field_name := build_localized_fieldname fld.original_name language
    match value with
    | none => { inst1 with i18n := some (bag_pop (inst1.i18n.getD []) field_name) }
    | some v => { inst1 with i18n := some (bag_set (inst1.i18n.getD []) field_name v) }

/-- The spec's §4.3 step 7–8 candidate walk, stated from the spec's words:
iterate the candidates; a candidate equal to the default language returns the
base value if truthy; any other candidate returns its bag entry if present
and truthy; exhaustion returns the base value.  Refinement comparator for
`fallback_walk`. -/
def spec_chain_lookup (d : String) (orig : Option String)
    (bag : List (String × String)) (base : String) : List String → Option String
  | [] => orig
  | c :: cs =>
    if c = d then
      if truthy orig then orig else spec_chain_lookup d orig bag base cs
    else
      match bag_get bag (build_localized_fieldname base c) with
      | some v => if v != "" then some v else spec_chain_lookup d orig bag base cs
      | none => spec_chain_lookup d orig bag base cs

/-- The `split_chars` undoes gluing with a separator character, provided the
suffix holds no further separator. -/
theorem split_chars_append (a : List Char) {b : List Char} (h : '_' ∉ b) :
    split_chars (a ++ '_' :: b) = (a, b) := by
  have h1 : (a ++ '_' :: b).take a.length = a := List.take_left a ('_' :: b)
  have e : a ++ '_' :: b = (a ++ ['_']) ++ b := by simp
  have h2 : (a ++ '_' :: b).drop (a.length + 1) = b := by
    rw [e]
    have hl : a.length + 1 = (a ++ ['_']).length := by simp
    rw [hl]
    exact List.drop_left _ _
  unfold split_chars
  rw [rfind_char_append a h]
  show ((a ++ '_' :: b).take a.length, (a ++ '_' :: b).drop (a.length + 1)) = (a, b)
  rw [h1, h2]

/-! ### Bag lemmas -/

theorem bag_get_set_self (bag : List (String × String)) (k v : String) :
    bag_get (bag_set bag k v) k = some v := by
  simp [bag_get, bag_set]

theorem bag_get_pop_self (b : List (String × String)) (k : String) :
    bag_get (bag_pop b k) k = none := by
  induction b with
  | nil => rfl
  | cons p ps ih =>
    by_cases hp : p.1 = k
    · simpa [bag_pop, List.filter_cons, hp] using ih
    · simpa [bag_pop, bag_get, List.filter_cons, hp] using ih

theorem bag_get_pop_other (b : List (String × String)) (k k' : String)
    (h : k' ≠ k) : bag_get (bag_pop b k) k' = bag_get b k' := by
  induction b with
  | nil => rfl
  | cons p ps ih =>
    by_cases hp : p.1 = k
    · have hk : ¬ k = k' := fun he => h he.symm
      simpa [bag_pop, bag_get, List.filter_cons, hp, hk] using ih
    · by_cases hq : p.1 = k'
      · simp [bag_pop, bag_get, List.filter_cons, hp, hq, h]
      · simpa [bag_pop, bag_get, List.filter_cons, hp, hq] using ih

theorem bag_pop_absent (b : List (String × String)) (k : String)
    (h : bag_get b k = none) : bag_pop b k = b := by
  induction b with
  | nil => rfl
  | cons p ps ih =>
    by_cases hp : p.1 = k
    · exfalso
      simp [bag_get, hp] at h
    · have hps : bag_get ps k = none := by
        simpa [bag_get, hp] using h
      simp only [bag_pop, List.filter_cons]
      have hb : (p.1 != k) = true := by simpa using hp
      rw [hb]
      simp only [if_true]
      have := ih hps
      simp only [bag_pop] at this
      rw [this]

/-- The `__get__` fallback loop computes exactly the spec's candidate walk. -/
theorem fallback_walk_eq_spec (d : String) (orig : Option String)
    (bag : List (String × String)) (base : String) (ls : List String) :
    fallback_walk d orig bag base ls = spec_chain_lookup d orig bag base ls := by
  induction ls with
  | nil => rfl
  | cons c cs ih =>
    unfold fallback_walk spec_chain_lookup
    by_cases hc : c = d
    · simp [hc, ih]
    · simp only [hc, if_false]
      cases hbg : bag_get bag (build_localized_fieldname base c) with
      | none => simp [hbg, ih]
      | some v =>
        by_cases hv : v = ""
        · simp [hbg, hv, ih, truthy]
        · simp [hbg, hv, ih, truthy]

/-! ### Structural lemmas for the write path -/

/-- Writing when the effective language is the record's default language
stores the value in the base field and leaves the bag's contents (after the
lazy initialisation) untouched. -/
theorem vfield_set_eq_default (cfg : Config) (fld : VField) (inst : Instance)
    (active : String) (value : Option String)
    (h : field_language cfg fld active =
      get_default_language cfg fld inst.default_language_value) :
    vfield_set cfg fld inst active value =
      { inst with original_value := value, i18n := some (inst.i18n.getD []) } := by
  by_cases hi : inst.i18n = none
  · simp [vfield_set, hi, h]
  · have hb : ∃ b, inst.i18n = some b := by
      cases hj : inst.i18n with
      | none => exact absurd hj hi
      | some b => exact ⟨b, rfl⟩
    obtain ⟨b, hb⟩ := hb
    simp [vfield_set, hb, h]

/-- Writing a non-`None` value when the effective language is not the
record's default language stores it in the bag under the encoded key. -/
theorem vfield_set_not_default (cfg : Config) (fld : VField) (inst : Instance)
    (active : String) (v : String)
    (h : ¬ field_language cfg fld active =
      get_default_language cfg fld inst.default_language_value) :
    vfield_set cfg fld inst active (some v) =
      { inst with i18n := some (bag_set (inst.i18n.getD [])
          (build_localized_fieldname fld.original_name
            (field_language cfg fld active)) v) } := by
  by_cases hi : inst.i18n = none
  · simp [vfield_set, hi, h]
  · have hb : ∃ b, inst.i18n = some b := by
      cases hj : inst.i18n with
      | none => exact absurd hj hi
      | some b => exact ⟨b, rfl⟩
    obtain ⟨b, hb⟩ := hb
    simp [vfield_set, hb, h]

/-- Writing `None` when the effective language is not the record's default
language pops the encoded key from the bag. -/
theorem vfield_set_none_not_default (cfg : Config) (fld : VField)
    (inst : Instance) (active : String)
    (h : ¬ field_language cfg fld active =
      get_default_language cfg fld inst.default_language_value) :
    vfield_set cfg fld inst active none =
      { inst with i18n := some (bag_pop (inst.i18n.getD [])
          (build_localized_fieldname fld.original_name
            (field_language cfg fld active))) } := by
  by_cases hi : inst.i18n = none
  · simp [vfield_set, hi, h]
  · have hb : ∃ b, inst.i18n = some b := by
      cases hj : inst.i18n with
      | none => exact absurd hj hi
      | some b => exact ⟨b, rfl⟩
    obtain ⟨b, hb⟩ := hb
    simp [vfield_set, hb, h]

/-! ### Concrete example values (used by witnesses and counterexamples) -/

/-- A configuration with default `en`, availables `en, fr, de, nl`, fallback
chain `(en, de)` for `fr`, and a per-record fallback-language field. -/
def exCfg : Config :=
  { available := ["en", "fr", "de", "nl"]
    default_language := "en"
    fallback := fun l => if l = "fr" then ["en", "de"] else []
    fallback_language_field := some "language_code" }

/-- A configuration without any per-record fallback-language field. -/
def exCfgPlain : Config :=
  { available := ["en", "fr", "de"]
    default_language := "en"
    fallback := fun _ => []
    fallback_language_field := none }

/-- The current-language accessor `title_i18n` of a `title` char field. -/
def exFieldCur : VField :=
  { original_name := "title", name := "title_i18n", language := none
    default_language_field := none, original_is_char := true
    original_max_length := some 100 }

/-- The fixed-language accessor `title_en` (the global default language). -/
def exFieldEn : VField :=
  { original_name := "title", name := "title_en", language := some "en"
    default_language_field := none, original_is_char := true
    original_max_length := some 100 }

/-- The fixed-language accessor `title_de`. -/
def exFieldDe : VField :=
  { original_name := "title", name := "title_de", language := some "de"
    default_language_field := none, original_is_char := true
    original_max_length := some 100 }

/-- A record with a loaded bag holding a Dutch entry, per-record fallback
language `nl`. -/
def exInst : Instance :=
  { original_value := some "base title"
    i18n := some [("title_nl", "nl titel"), ("title_de", "de Titel")]
    deferred := false
    fallback_language_value := some "nl"
    default_language_value := "en" }

/-- A record with a loaded, empty bag and no base value. -/
def exInstEmpty : Instance :=
  { original_value := none
    i18n := some []
    deferred := false
    fallback_language_value := none
    default_language_value := "en" }

/-- A record whose `i18n` attribute was deferred from loading. -/
def exInstDeferred : Instance :=
  { original_value := some "base title"
    i18n := none
    deferred := true
    fallback_language_value := none
    default_language_value := "en" }

/-! ### Claims C1, C2, C5, C6, C7 — the in-memory resolver -/

/-- Claim C1: with active language `fr`, configured fallback chain `(en, de)`
for `fr`, and the record's per-record fallback field holding `nl`, the
current-language accessor resolves by trying `fr, nl, en, de` in that order
and then the base field, returning the first truthy hit, where a candidate
equal to the record's default language reads the base field instead of the
bag, and exhaustion returns the base field's value regardless of
truthiness. -/
theorem C1_fallback_order (cfg : Config) (fld : VField) (inst : Instance)
    (hdef : inst.deferred = false) (hcur : fld.language = none)
    (hfr : "fr" ∈ cfg.available) (hchain : cfg.fallback "fr" = ["en", "de"])
    (hpr : cfg.fallback_language_field.isSome = true)
    (hnl : inst.fallback_language_value = some "nl") :
    vfield_get cfg fld inst "fr" =
      .ok (spec_chain_lookup (get_default_language cfg fld inst.default_language_value)
        inst.original_value (inst.i18n.getD []) fld.original_name
        ["fr", "nl", "en", "de"]) := by
  have hlang : field_language cfg fld "fr" = "fr" := by
    simp [field_language, hcur, get_language, hfr]
  have hic : get_instance_fallback_chain cfg inst.fallback_language_value "fr"
      = ["nl", "en", "de"] := by
    obtain ⟨f, hf⟩ := Option.isSome_iff_exists.mp hpr
    simp [get_instance_fallback_chain, hf, hnl, hchain]
  by_cases hfast : ("fr" : String) =
      get_default_language cfg fld inst.default_language_value
      ∧ truthy inst.original_value
  · obtain ⟨h1, h2⟩ := hfast
    simp [vfield_get, hdef, hlang, hcur, spec_chain_lookup, ← h1, h2]
  · simp [vfield_get, hdef, hlang, hcur, hic, hfast, fallback_walk_eq_spec]

theorem C1_witness :
    exInst.deferred = false ∧ exFieldCur.language = none ∧
    "fr" ∈ exCfg.available ∧ exCfg.fallback "fr" = ["en", "de"] ∧
    exCfg.fallback_language_field.isSome = true ∧
    exInst.fallback_language_value = some "nl" ∧
    vfield_get exCfg exFieldCur exInst "fr" =
      .ok (spec_chain_lookup
        (get_default_language exCfg exFieldCur exInst.default_language_value)
        exInst.original_value (exInst.i18n.getD []) exFieldCur.original_name
        ["fr", "nl", "en", "de"]) :=
  ⟨rfl, rfl, by decide, by decide, rfl, rfl,
    C1_fallback_order exCfg exFieldCur exInst rfl rfl (by decide) (by decide)
      rfl rfl⟩

/-- Claim C2, counterexample: writing the non-null but falsy value `""`
through the default-language accessor and reading it back returns `None`,
not `""`: the claim fails for non-null falsy values. -/
theorem C2_counterexample :
    vfield_get exCfg exFieldEn
        (vfield_set exCfg exFieldEn exInstEmpty "en" (some "")) "en" =
      .ok none ∧
    vfield_get exCfg exFieldEn
        (vfield_set exCfg exFieldEn exInstEmpty "en" (some "")) "en" ≠
      .ok (some "") := by
  have h1 : vfield_get exCfg exFieldEn
      (vfield_set exCfg exFieldEn exInstEmpty "en" (some "")) "en" =
      .ok none := rfl
  refine ⟨h1, fun hne => ?_⟩
  rw [h1] at hne
  exact Option.noConfusion (Except.ok.inj hne)

/-- Claim C2, amended: for every synthetic accessor and every non-null
*truthy* (non-empty) value `V`, writing `V` and immediately reading the same
accessor with the active language held fixed returns `V`, provided the
record's bag is loaded.  (As stated over all non-null values the claim fails
at `V = ""`.) -/
theorem C2_write_read_roundtrip (cfg : Config) (fld : VField) (inst : Instance)
    (active : String) (v : String)
    (hdef : inst.deferred = false) (hv : v ≠ "") :
    vfield_get cfg fld (vfield_set cfg fld inst active (some v)) active =
      .ok (some v) := by
  by_cases heq : field_language cfg fld active =
      get_default_language cfg fld inst.default_language_value
  · rw [vfield_set_eq_default cfg fld inst active (some v) heq]
    simp [vfield_get, hdef, heq, truthy, hv]
  · rw [vfield_set_not_default cfg fld inst active v heq]
    cases hfl : fld.language with
    | some l =>
      have hfll : field_language cfg fld active = l := by
        simp [field_language, hfl]
      rw [hfll] at heq ⊢
      simp [vfield_get, hdef, heq, hfl, field_language,
        bag_get_set_self, truthy, hv]
    | none =>
      simp only [field_language, hfl] at heq
      simp [vfield_get, hdef, heq, hfl, field_language, fallback_walk,
        bag_get_set_self, truthy, hv]

theorem C2_witness :
    exInst.deferred = false ∧ ("de Titel 2" : String) ≠ "" ∧
    vfield_get exCfg exFieldDe
        (vfield_set exCfg exFieldDe exInst "fr" (some "de Titel 2")) "fr" =
      .ok (some "de Titel 2") :=
  ⟨rfl, by decide,
    C2_write_read_roundtrip exCfg exFieldDe exInst "fr" "de Titel 2" rfl
      (by decide)⟩

/-- Claim C5: reading any synthetic accessor on a record whose bag attribute
was deferred from loading raises the deferred-access error.  It never
returns a value. -/
theorem C5_deferred_access (cfg : Config) (fld : VField) (inst : Instance)
    (active : String) (h : inst.deferred = true) :
    vfield_get cfg fld inst active = .error deferred_message := by
  simp [vfield_get, h]

theorem C5_witness :
    exInstDeferred.deferred = true ∧
    vfield_get exCfg exFieldCur exInstDeferred "fr" = .error deferred_message :=
  ⟨rfl, C5_deferred_access exCfg exFieldCur exInstDeferred "fr" rfl⟩

/-- Claim C6: with no per-record default-language override, writing any value
through the current-language accessor while the active language equals the
global default stores the value in the base physical field and leaves the
bag's entry for the default-language storage key unchanged. -/
theorem C6_default_language_write (cfg : Config) (fld : VField)
    (inst : Instance) (V : Option String)
    (hcur : fld.language = none) (hnd : fld.default_language_field = none) :
    (vfield_set cfg fld inst cfg.default_language V).original_value = V ∧
    bag_get ((vfield_set cfg fld inst cfg.default_language V).i18n.getD [])
        (build_localized_fieldname fld.original_name cfg.default_language) =
      bag_get (inst.i18n.getD [])
        (build_localized_fieldname fld.original_name cfg.default_language) := by
  have hL : field_language cfg fld cfg.default_language =
      get_default_language cfg fld inst.default_language_value := by
    simp [field_language, hcur, get_language, get_default_language, hnd]
  rw [vfield_set_eq_default cfg fld inst cfg.default_language V hL]
  exact ⟨rfl, rfl⟩

theorem C6_witness :
    exFieldCur.language = none ∧ exFieldCur.default_language_field = none ∧
    ((vfield_set exCfg exFieldCur exInst exCfg.default_language
        (some "new base")).original_value = some "new base" ∧
      bag_get ((vfield_set exCfg exFieldCur exInst exCfg.default_language
          (some "new base")).i18n.getD [])
          (build_localized_fieldname exFieldCur.original_name
            exCfg.default_language) =
        bag_get (exInst.i18n.getD [])
          (build_localized_fieldname exFieldCur.original_name
            exCfg.default_language)) :=
  ⟨rfl, rfl,
    C6_default_language_write exCfg exFieldCur exInst (some "new base") rfl rfl⟩

/-- Claim C7: writing `None` through an accessor whose effective language is
not the record's default language pops the encoded key from the bag —
removing it if present, silently when absent — so that the bag no longer
holds the key, every other key is untouched, and an already-absent key
leaves the bag exactly as it was. -/
theorem C7_write_none (cfg : Config) (fld : VField) (inst : Instance)
    (active : String)
    (h : ¬ field_language cfg fld active =
      get_default_language cfg fld inst.default_language_value) :
    (vfield_set cfg fld inst active none).i18n =
      some (bag_pop (inst.i18n.getD [])
        (build_localized_fieldname fld.original_name
          (field_language cfg fld active))) ∧
    bag_get (bag_pop (inst.i18n.getD [])
        (build_localized_fieldname fld.original_name
          (field_language cfg fld active)))
      (build_localized_fieldname fld.original_name
        (field_language cfg fld active)) = none ∧
    (∀ k, k ≠ build_localized_fieldname fld.original_name
        (field_language cfg fld active) →
      bag_get (bag_pop (inst.i18n.getD [])
          (build_localized_fieldname fld.original_name
            (field_language cfg fld active))) k =
        bag_get (inst.i18n.getD []) k) ∧
    (bag_get (inst.i18n.getD [])
        (build_localized_fieldname fld.original_name
          (field_language cfg fld active)) = none →
      bag_pop (inst.i18n.getD [])
          (build_localized_fieldname fld.original_name
            (field_language cfg fld active)) = inst.i18n.getD []) := by
  refine ⟨?_, bag_get_pop_self _ _, fun k hk => bag_get_pop_other _ _ _ hk,
    fun ha => bag_pop_absent _ _ ha⟩
  rw [vfield_set_none_not_default cfg fld inst active h]

theorem C7_witness :
    (¬ field_language exCfg exFieldDe "fr" =
        get_default_language exCfg exFieldDe exInst.default_language_value) ∧
    ((vfield_set exCfg exFieldDe exInst "fr" none).i18n =
      some (bag_pop (exInst.i18n.getD [])
        (build_localized_fieldname exFieldDe.original_name
          (field_language exCfg exFieldDe "fr"))) ∧
    bag_get (bag_pop (exInst.i18n.getD [])
        (build_localized_fieldname exFieldDe.original_name
          (field_language exCfg exFieldDe "fr")))
      (build_localized_fieldname exFieldDe.original_name
        (field_language exCfg exFieldDe "fr")) = none ∧
    (∀ k, k ≠ build_localized_fieldname exFieldDe.original_name
        (field_language exCfg exFieldDe "fr") →
      bag_get (bag_pop (exInst.i18n.getD [])
          (build_localized_fieldname exFieldDe.original_name
            (field_language exCfg exFieldDe "fr"))) k =
        bag_get (exInst.i18n.getD []) k) ∧
    (bag_get (exInst.i18n.getD [])
        (build_localized_fieldname exFieldDe.original_name
          (field_language exCfg exFieldDe "fr")) = none →
      bag_pop (exInst.i18n.getD [])
          (build_localized_fieldname exFieldDe.original_name
            (field_language exCfg exFieldDe "fr")) = exInst.i18n.getD [])) :=
  ⟨by decide, C7_write_none exCfg exFieldDe exInst "fr" (by decide)⟩

/-! ### Claims C3, C9, C10 — the field-name codec -/

/-- Claim C3, counterexample: `decode("title_pt_br")` splits at the *last*
underscore and therefore yields `("title_pt", "br")`, not the claimed
`("title", "pt_br")`. -/
theorem C3_counterexample :
    split_translated_fieldname "title_pt_br" = ("title_pt", "br") ∧
    split_translated_fieldname "title_pt_br" ≠ ("title", "pt_br") := by
  refine ⟨by decide, by decide⟩

/-- Claim C3, amended: `decode` splits a storage key on the last underscore
into (base field, language): for any base part `a` and any suffix `b` free
of underscores, `decode(a ++ "_" ++ b) = (a, b)`; in particular
`decode("title_pt_br")` yields `("title_pt", "br")`. -/
theorem C3_split_last_underscore (a b : String) (h : '_' ∉ b.toList) :
    split_translated_fieldname (a ++ "_" ++ b) = (a, b) ∧
    split_translated_fieldname "title_pt_br" = ("title_pt", "br") := by
  refine ⟨?_, by decide⟩
  have hl : (a ++ "_" ++ b).toList = a.toList ++ '_' :: b.toList := by
    rw [toList_append, toList_append]
    show a.toList ++ ['_'] ++ b.toList = a.toList ++ '_' :: b.toList
    simp
  unfold split_translated_fieldname
  rw [hl, split_chars_append _ h]
  simp [string_mk_toList]

theorem C3_witness :
    ('_' ∉ ("fr" : String).toList) ∧
    (split_translated_fieldname ("title" ++ "_" ++ "fr") = ("title", "fr") ∧
      split_translated_fieldname "title_pt_br" = ("title_pt", "br")) :=
  ⟨by decide, C3_split_last_underscore "title" "fr" (by decide)⟩

/-- Claim C9: `encode(base_field, language)` is
`base_field ++ "_" ++ normalize(language)` with `normalize` replacing `-`
by `_` and remapping `id` to `ind`; in particular `encode("title", "id")`
is `title_ind` and `encode("title", "pt-br")` is `title_pt_br`. -/
theorem C9_encode (f l : String) :
    build_localized_fieldname f l = spec_encode f l ∧
    build_localized_fieldname "title" "id" = "title_ind" ∧
    build_localized_fieldname "title" "pt-br" = "title_pt_br" :=
  ⟨build_localized_fieldname_eq_spec_encode f l, by decide, by decide⟩

/-- Claim C10: for any base field name (underscores allowed) and any language
code containing neither `-` nor `_` and different from `id`, decoding the
encoded storage key returns the original (base field, language) pair. -/
theorem C10_codec_roundtrip (f l : String) (h1 : '-' ∉ l.toList)
    (h2 : '_' ∉ l.toList) (h3 : l ≠ "id") :
    split_translated_fieldname (build_localized_fieldname f l) = (f, l) := by
  have hnorm : normalize_chars l.toList = l.toList := by
    unfold normalize_chars
    have hne : ¬ l.toList = ['i', 'd'] := by
      intro he
      apply h3
      rw [string_eq_iff_toList]
      simpa using he
    rw [if_neg hne]
    have : l.toList.map (fun c => if c = '-' then '_' else c) =
        l.toList.map id := by
      apply List.map_congr_left
      intro c hc
      have hcne : c ≠ '-' := fun hcc => h1 (hcc ▸ hc)
      simp [hcne]
    simpa using this
  unfold split_translated_fieldname build_localized_fieldname
  have hl : (String.mk (f.toList ++ '_' :: normalize_chars l.toList)).toList =
      f.toList ++ '_' :: l.toList := by
    rw [hnorm]
    exact rfl
  rw [hl, split_chars_append _ h2]
  simp [string_mk_toList]

theorem C10_witness :
    ('-' ∉ ("pt" : String).toList) ∧ ('_' ∉ ("pt" : String).toList) ∧
    ("pt" : String) ≠ "id" ∧
    split_translated_fieldname (build_localized_fieldname "sub_title" "pt") =
      ("sub_title", "pt") :=
  ⟨by decide, by decide, by decide,
    C10_codec_roundtrip "sub_title" "pt" (by decide) (by decide) (by decide)⟩

/-! ### Query-expression compilation
(`TranslatedVirtualField._localized_lookup` / `as_expression`) -/

/-- Python `str.replace(old, new)` at character level: replace each
non-overlapping occurrence scanning left to right.  The fuel argument is
structural bookkeeping only — `s.length` steps always suffice because every
step consumes at least one character of `s`. -/
def replace_fuel (pat repl : List Char) : Nat → List Char → List Char
  | 0, s => s
  | _ + 1, [] => []
  | n + 1, c :: rest =>
    if pat ≠ [] ∧ pat.isPrefixOf (c :: rest) then
      repl ++ replace_fuel pat repl n ((c :: rest).drop pat.length)
    else c :: replace_fuel pat repl n rest

/-- Python `s.replace(pat, repl)` (for the non-empty patterns the source
uses: accessor and field names). -/
def str_replace (s pat repl : String) : String :=
  String.mk (replace_fuel pat.toList repl.toList s.toList.length s.toList)

/-- The Django field type used as Cast/Coalesce output: the original field
class, with `max_length` forwarded for a `CharField`
(cf. `TranslatedVirtualField.output_field`). -/
inductive OutputField
  | charField (max_length : Option Nat)
  | textField
deriving DecidableEq

/-- The `TranslatedVirtualField.output_field`. -/
def VField.output_field (fld : VField) : OutputField :=
  if fld.original_is_char then .charField fld.original_max_length
  else .textField

/-- The `language` parameter of `_localized_lookup`: a literal code, or an
`F`-expression naming the per-record fallback-language field. -/
inductive LangArg
  | lit (l : String)
  | fexpr (field : String)

/-- The fragment of the Django ORM expression vocabulary `as_expression`
produces: `F` references, plain lookup strings handed to `Coalesce`,
`KeyTextTransform` (static key extraction), `FallbackTransform` (dynamic key
extraction — the class is imported from `modeltrans.utils` but not under
`src/`; modelled from the spec as a transform carrying the key stem, the
language field and the source lookup), `Case/When` on the default-language
field, `Cast`, and `Coalesce`. -/
inductive JExpr
  | fref (lookup : String)
  | ref (lookup : String)
  | keyTextTransform (key : String) (source : String)
  | fallbackTransform (key_stem : String) (lang_field : String) (source : String)
  | caseDefault (cond_field : String) (cond_language : String)
      (then_lookup : String) (dflt : JExpr) (out : OutputField)
  | cast (e : JExpr) (out : OutputField)
  | coalesce (args : List JExpr) (out : OutputField)

/-- Whether an expression is a first-non-null coalescing expression. -/
def JExpr.isCoalesce : JExpr → Bool
  | .coalesce _ _ => true
  | _ => false

/-- The `TranslatedVirtualField._localized_lookup`: a plain lookup string when
no per-record default-language field is configured and the language is the
global default; a `FallbackTransform` with a computed key when the language
is an `F`-expression; a `Case/When` on the default-language field when one
is configured; otherwise a static `KeyTextTransform` into the bag. -/
def localized_lookup (cfg : Config) (fld : VField) (language : LangArg)
    (bare_lookup : String) : String ⊕ JExpr :=
  match language with
  | .lit l =>
    if fld.default_language_field = none ∧ l = cfg.default_language then
      .inl (str_replace bare_lookup fld.name fld.original_name)
    else
      match fld.default_language_field with
      | some dlf =>
        .inr (.caseDefault dlf l
          (str_replace bare_lookup fld.name fld.original_name)
          (.keyTextTransform (build_localized_fieldname fld.original_name l)
            (str_replace bare_lookup fld.name "i18n"))
          fld.output_field)
      | none =>
        .inr (.keyTextTransform (build_localized_fieldname fld.original_name l)
          (str_replace bare_lookup fld.name "i18n"))
  | .fexpr lf =>
    .inr (.fallbackTransform (build_localized_fieldname fld.original_name "")
      lf (str_replace bare_lookup fld.name "i18n"))

/-- Django accepts both expression objects and plain lookup strings in
`Coalesce` argument positions; a plain string denotes a column reference. -/
def lookup_expr : String ⊕ JExpr → JExpr
  | .inl s => .ref s
  | .inr e => e

/-- The `TranslatedVirtualField.as_expression`: early `F` reference when no
per-record default-language field is configured and the effective language
is the global default; a bare `Cast` of the single lookup when `fallback`
is off; otherwise the ordered `Coalesce` over the active-language lookup,
the optional per-record dynamic lookup, the static fallback chain, and the
base column. -/
def as_expression (cfg : Config) (fld : VField) (active : String)
    (bare_lookup : String) (fallback : Bool) : JExpr :=
  let language := field_language cfg fld active
  if fld.default_language_field = none ∧ language = cfg.default_language then
    match localized_lookup cfg fld (.lit language) bare_lookup with
    | .inl s => .fref s
    -- unreachable: under the branch condition `_localized_lookup` returns
    -- the plain lookup string
    | .inr e => e
  else if fallback = false then
    .cast (lookup_expr (localized_lookup cfg fld (.lit language) bare_lookup))
      fld.output_field
  else
    let lookups :=
      [localized_lookup cfg fld (.lit language) bare_lookup]
      ++ (match cfg.fallback_language_field with
          | some f => [localized_lookup cfg fld (.fexpr f) bare_lookup]
          | none => [])
      ++ (cfg.fallback language).map
          (fun fl => localized_lookup cfg fld (.lit fl) bare_lookup)
      ++ [.inl (str_replace bare_lookup fld.name fld.original_name)]
    .coalesce (lookups.map lookup_expr) fld.output_field

/-! ### Claim C4 — the fallback expression -/

/-- Claim C4, counterexample: with no per-record default-language field
configured and the active language equal to the global default,
`as_expression` with `apply_fallback = True` returns a plain `F` reference
to the base column — not a coalescing expression as the claim states for
every accessor. -/
theorem C4_counterexample :
    as_expression exCfgPlain exFieldCur "en" "title_i18n" true = .fref "title" ∧
    (as_expression exCfgPlain exFieldCur "en" "title_i18n" true).isCoalesce
      = false :=
  ⟨rfl, rfl⟩

/-- Claim C4, amended: for every synthetic accessor whose compilation does
not hit the default-language early return (that is, a per-record
default-language field is configured or the effective language differs from
the global default), compiling with `apply_fallback = True` yields a
first-non-null `Coalesce`, typed to the original field's output type, over,
in order: the active-language lookup, optionally the dynamic lookup keyed by
the per-record fallback-language field, one lookup per statically configured
fallback language, and finally the base field's own column. -/
theorem C4_fallback_coalesce (cfg : Config) (fld : VField) (active : String)
    (bare_lookup : String)
    (h : ¬ (fld.default_language_field = none ∧
      field_language cfg fld active = cfg.default_language)) :
    as_expression cfg fld active bare_lookup true =
      .coalesce
        (lookup_expr (localized_lookup cfg fld
            (.lit (field_language cfg fld active)) bare_lookup) ::
          ((match cfg.fallback_language_field with
            | some f =>
              [lookup_expr (localized_lookup cfg fld (.fexpr f) bare_lookup)]
            | none => []) ++
           (cfg.fallback (field_language cfg fld active)).map
             (fun fl =>
               lookup_expr (localized_lookup cfg fld (.lit fl) bare_lookup)) ++
           [.ref (str_replace bare_lookup fld.name fld.original_name)]))
        fld.output_field := by
  cases hff : cfg.fallback_language_field with
  | none => simp [as_expression, h, hff, lookup_expr]
  | some f => simp [as_expression, h, hff, lookup_expr]

theorem C4_witness :
    (¬ (exFieldCur.default_language_field = none ∧
      field_language exCfg exFieldCur "fr" = exCfg.default_language)) ∧
    as_expression exCfg exFieldCur "fr" "title_i18n" true =
      .coalesce
        (lookup_expr (localized_lookup exCfg exFieldCur
            (.lit (field_language exCfg exFieldCur "fr")) "title_i18n") ::
          ((match exCfg.fallback_language_field with
            | some f =>
              [lookup_expr (localized_lookup exCfg exFieldCur (.fexpr f)
                "title_i18n")]
            | none => []) ++
           (exCfg.fallback (field_language exCfg exFieldCur "fr")).map
             (fun fl =>
               lookup_expr (localized_lookup exCfg exFieldCur (.lit fl)
                 "title_i18n")) ++
           [.ref (str_replace "title_i18n" exFieldCur.name
             exFieldCur.original_name)]))
        exFieldCur.output_field :=
  ⟨by decide, C4_fallback_coalesce exCfg exFieldCur "fr" "title_i18n"
    (by decide)⟩

/-! ### Schema wiring (`modeltrans/translator.py`) -/

/-- The two usable shapes of the `required_languages` argument (`validate`
rejects any other type at runtime; the typed embedding covers the
tuple/list/set shape and the dict shape). -/
inductive ReqLangs
  | listOf (ls : List String)
  | dictOf (entries : List (String × List String))

/-- Python truthiness of `required_languages` (`validate` skips the check
when it is empty). -/
def req_truthy : ReqLangs → Bool
  | .listOf ls => !ls.isEmpty
  | .dictOf d => !d.isEmpty

/-- A model declaration as `translate_model` sees it: the model name, its
existing concrete field names, and the `TranslationField` arguments. -/
structure ModelDecl where
  model_name : String
  model_fields : List String
  i18n_fields : List String
  required_languages : ReqLangs
  fallback_language_field : Option String
  default_language_field : Option String
  virtual_fields : Bool

/-- The `check_languages` from `modeltrans/translator.py`: error at the first
required language that is not an available language. -/
def check_languages (available : List String) (model_name : String) :
    List String → Except String Unit
  | [] => .ok ()
  | l :: ls =>
    if l ∈ available then check_languages available model_name ls
    else .error ("Language \"" ++ l ++ "\" is in required_languages on Model \""
      ++ model_name ++ "\" but not in settings.MODELTRANS_AVAILABLE_LANGUAGES.")

/-- The loop of `validate` checking that every name in `fields` is an
existing model field. -/
def check_fields_exist (model_fields : List String) :
    List String → Except String Unit
  | [] => .ok ()
  | f :: fs =>
    if f ∈ model_fields then check_fields_exist model_fields fs
    else .error ("Argument \"fields\" to TranslationField contains an item \""
      ++ f ++ "\", which is not a field (missing a comma?).")

/-- The dict branch of `validate`: each entry's field name must be declared
translatable, and its languages must all be available.  (The source's
isinstance check on the languages value is a runtime type check that the
typed embedding makes vacuous; the message of the missing-field error
interpolates a stale loop variable in the source, its text is not part of
any claim.) -/
def check_required_dict (available : List String) (model_name : String)
    (i18n_fields : List String) :
    List (String × List String) → Except String Unit
  | [] => .ok ()
  | (fieldname, languages) :: rest =>
    if fieldname ∉ i18n_fields then
      .error ("Fieldname \"" ++ fieldname ++ "\" in required_languages which "
        ++ "is not defined as translatable in \"" ++ model_name ++ ".i18n\".")
    else
      match check_languages available model_name languages with
      | .ok _ => check_required_dict available model_name i18n_fields rest
      | .error e => .error e

/-- The `validate` from `modeltrans/translator.py`: translatable fields must
exist, a configured `fallback_language_field` must exist (the source resolves
it through `get_model_field`, which is not under `src/`; modelled from the
spec as membership in the model's fields), and `required_languages` must be
well-shaped with every language available. -/
def validate (cfg : Config) (m : ModelDecl) : Except String Unit := do
  check_fields_exist m.model_fields m.i18n_fields
  match m.fallback_language_field with
  | some f =>
    if f ∈ m.model_fields then pure ()
    else throw ("Argument \"fallback_language_field\" to TranslationField is \""
      ++ f ++ "\", which is not an existing field.")
  | none => pure ()
  if req_truthy m.required_languages then
    match m.required_languages with
    | .listOf ls => check_languages cfg.available m.model_name ls
    | .dictOf d => check_required_dict cfg.available m.model_name m.i18n_fields d
  else pure ()

/-- Modelled from the spec: `conf.get_available_languages(include_default)`
of the configuration provider (not under `src/`) — the available languages,
with the default language included only when requested. -/
def get_available_languages (cfg : Config) (include_default : Bool) :
    List String :=
  if include_default then cfg.available
  else cfg.available.filter (fun l => l != cfg.default_language)

/-- The accessor names `add_virtual_fields` generates for one base field:
the `_i18n` current-language accessor, the accessor for the global default
language when no per-record default-language field is configured, then one
accessor per remaining available language. -/
def virtual_field_names (cfg : Config) (m : ModelDecl) (f : String) :
    List String :=
  build_localized_fieldname f "i18n" ::
    (if m.default_language_field.isSome then []
     else [build_localized_fieldname f cfg.default_language]) ++
    (get_available_languages cfg m.default_language_field.isSome).map
      (build_localized_fieldname f)

/-- The `raise_if_field_exists` followed by `contribute_to_class` for each
generated accessor: extend the model's fields, failing on a name
collision. -/
def add_fields_checked (model_name : String) :
    List String → List String → Except String (List String)
  | existing, [] => .ok existing
  | existing, n :: ns =>
    if n ∈ existing then
      .error ("Error adding translation field. Model \"" ++ model_name
        ++ "\" already contains a field named \"" ++ n ++ "\".")
    else add_fields_checked model_name (existing ++ [n]) ns

/-- The `add_virtual_fields`: generate and add the synthetic accessors for
every translatable base field. -/
def add_virtual_fields (cfg : Config) (m : ModelDecl) :
    Except String (List String) :=
  add_fields_checked m.model_name m.model_fields
    ((m.i18n_fields.map (virtual_field_names cfg m)).flatten)

/-- The `translate_model` from `modeltrans/translator.py`, for a model carrying
an `i18n` `TranslationField`: return unchanged when `virtual_fields` is off;
otherwise validate the configuration and only then create the synthetic
accessors.  (Manager patching, constructor patching and ordering rewriting
are outside the claims' scope.)  The result is the model's field list after
schema setup. -/
def translate_model (cfg : Config) (m : ModelDecl) :
    Except String (List String) :=
  if m.virtual_fields = false then .ok m.model_fields
  else do
    validate cfg m
    add_virtual_fields cfg m

theorem check_fields_exist_ok (mf : List String) (fs : List String)
    (h : ∀ f ∈ fs, f ∈ mf) : check_fields_exist mf fs = .ok () := by
  induction fs with
  | nil => rfl
  | cons f fs ih =>
    have hf : f ∈ mf := h f (List.mem_cons_self f fs)
    have hrest := ih (fun x hx => h x (List.mem_cons_of_mem f hx))
    simp [check_fields_exist, hf, hrest]

/-! ### Claim C8 — required-language validation -/

/-- Claim C8: configuring `required_languages = {"title": ("xx",)}` with `xx`
not among the available languages makes schema setup fail with the
configuration error raised by `check_languages`: `translate_model` errors
inside `validate`, which runs before `add_virtual_fields`, so no synthetic
accessor is created. -/
theorem C8_required_language_validation (cfg : Config) (m : ModelDecl)
    (hvf : m.virtual_fields = true)
    (hreq : m.required_languages = .dictOf [("title", ["xx"])])
    (hxx : "xx" ∉ cfg.available)
    (hfld : "title" ∈ m.i18n_fields)
    (hexist : ∀ f ∈ m.i18n_fields, f ∈ m.model_fields)
    (hfb : m.fallback_language_field = none) :
    translate_model cfg m =
      .error ("Language \"xx\" is in required_languages on Model \""
        ++ m.model_name
        ++ "\" but not in settings.MODELTRANS_AVAILABLE_LANGUAGES.") := by
  have hcf : check_fields_exist m.model_fields m.i18n_fields = .ok () :=
    check_fields_exist_ok _ _ hexist
  have hcl : check_languages cfg.available m.model_name ["xx"] =
      .error ("Language \"xx\" is in required_languages on Model \""
        ++ m.model_name
        ++ "\" but not in settings.MODELTRANS_AVAILABLE_LANGUAGES.") := by
    simp [check_languages, hxx]
  have hcd : check_required_dict cfg.available m.model_name m.i18n_fields
      [("title", ["xx"])] =
      .error ("Language \"xx\" is in required_languages on Model \""
        ++ m.model_name
        ++ "\" but not in settings.MODELTRANS_AVAILABLE_LANGUAGES.") := by
    simp [check_required_dict, hfld, hcl]
  have hval : validate cfg m =
      .error ("Language \"xx\" is in required_languages on Model \""
        ++ m.model_name
        ++ "\" but not in settings.MODELTRANS_AVAILABLE_LANGUAGES.") := by
    simp [validate, hcf, hfb, hreq, req_truthy, hcd, Bind.bind, Except.bind,
      pure, Except.pure]
  simp [translate_model, hvf, hval, Bind.bind, Except.bind]

/-- A model declaring `title` translatable with `required_languages`
demanding the unavailable language `xx`. -/
def exModel : ModelDecl :=
  { model_name := "Blog"
    model_fields := ["id", "title", "body"]
    i18n_fields := ["title"]
    required_languages := .dictOf [("title", ["xx"])]
    fallback_language_field := none
    default_language_field := none
    virtual_fields := true }

theorem C8_witness :
    exModel.virtual_fields = true ∧
    exModel.required_languages = .dictOf [("title", ["xx"])] ∧
    ("xx" ∉ exCfgPlain.available) ∧
    "title" ∈ exModel.i18n_fields ∧
    (∀ f ∈ exModel.i18n_fields, f ∈ exModel.model_fields) ∧
    exModel.fallback_language_field = none ∧
    translate_model exCfgPlain exModel =
      .error ("Language \"xx\" is in required_languages on Model \""
        ++ exModel.model_name
        ++ "\" but not in settings.MODELTRANS_AVAILABLE_LANGUAGES.") :=
  ⟨rfl, rfl, by decide, by decide, by decide, rfl,
    C8_required_language_validation exCfgPlain exModel rfl rfl (by decide)
      (by decide) (by decide) rfl⟩
